import Mathlib

/-!
Verification of the iochannel library: a single-threaded byte pipe with a
reader half that owns a shared FIFO byte queue and a writer half that holds
a weak reference to it.

The embedding models the shared VecDeque of bytes as a list of naturals
(front of the list = front of the deque).  The writer observes the channel
through an optional queue: some q models a successful Weak upgrade (the
ReadChannel is alive and the queue holds q); none models the reader having
been dropped, which frees the queue.
-/

namespace IoChannel

/-- The one error kind the library produces, from std io ErrorKind. -/
inductive ErrorKind where
  | brokenPipe
  deriving DecidableEq, Repr

/-- The shared VecDeque of bytes; head of the list is the front of the deque. -/
abbrev Queue := List Nat

/-- The loop in ReadChannel read: for i in 0..to_read, buf[i] = data.pop_front().
Pops k bytes off the front of data, storing them into buf at indices
i, i+1, and so on; returns the remaining deque and the updated buffer.
The empty-deque branch is unreachable because the caller passes
k at most the length of data. -/
def readLoop : Queue → List Nat → Nat → Nat → Queue × List Nat
  | data, buf, _, 0 => (data, buf)
  | data, buf, i, k + 1 =>
    match data with
    | [] => (data, buf)
    | d :: rest => readLoop rest (buf.set i d) (i + 1) k

/-- ReadChannel read: computes to_read as the minimum of the queue length and
the buffer length, pops that many bytes off the front of the queue into the
start of the buffer, and returns Ok to_read together with the new queue and
buffer contents. -/
def ReadChannel.read (data : Queue) (buf : List Nat) :
    Except ErrorKind (Nat × Queue × List Nat) :=
  let toRead := min data.length buf.length
  let res := readLoop data buf 0 toRead
  .ok (toRead, res.1, res.2)

/-- The writer's view of the channel: some q when the Weak upgrade succeeds
(ReadChannel alive, queue contents q), none when the reader was dropped. -/
abbrev WriterState := Option Queue

/-- WriteChannel write: if the upgrade succeeds, appends every byte of buf to
the back of the queue and returns Ok of the length of buf; otherwise fails
with a BrokenPipe error and leaves nothing behind. -/
def WriteChannel.write (st : WriterState) (buf : List Nat) :
    Except ErrorKind Nat × WriterState :=
  match st with
  | some data => (.ok buf.length, some (data ++ buf))
  | none => (.error .brokenPipe, none)

/-- WriteChannel flush: Ok when the upgrade succeeds, BrokenPipe otherwise;
the queue is never touched. -/
def WriteChannel.flush (st : WriterState) : Except ErrorKind Unit × WriterState :=
  match st with
  | some data => (.ok (), some data)
  | none => (.error .brokenPipe, none)

/-- A sequence of write calls, threading the writer state. -/
def writeAll (st : WriterState) : List (List Nat) → WriterState
  | [] => st
  | c :: cs => writeAll (WriteChannel.write st c).2 cs

/-- One operation of the single-threaded usage protocol while the reader is
alive: the writer appends a chunk, or the reader reads into a buffer. -/
inductive Op where
  | wr (bytes : List Nat)
  | rd (buf : List Nat)
  deriving DecidableEq

/-- Whether an operation is a read. -/
def Op.isRead : Op → Bool
  | .rd _ => true
  | .wr _ => false

/-- Run a sequence of operations on a live channel.  Returns the final queue,
the concatenation of all bytes handed out by reads (each read hands out the
first n bytes of its buffer, n being the returned count), and the
concatenation of all chunks accepted by writes. -/
def runOps : Queue → List Op → Queue × List Nat × List Nat
  | q, [] => (q, [], [])
  | q, Op.wr bytes :: ops =>
    let st := (WriteChannel.write (some q) bytes).2
    let rest := runOps (st.getD q) ops
    (rest.1, rest.2.1, bytes ++ rest.2.2)
  | q, Op.rd buf :: ops =>
    match ReadChannel.read q buf with
    | .ok (n, q1, buf1) =>
      let rest := runOps q1 ops
      (rest.1, buf1.take n ++ rest.2.1, rest.2.2)
    | .error _ => runOps q ops

/-- A writer-side operation: a write, a flush, or the destruction of the
corresponding ReadChannel (which frees the queue). -/
inductive WriterOp where
  | wrOp (bytes : List Nat)
  | flOp
  | dropReader
  deriving DecidableEq

/-- Effect of one writer-side operation on the writer's view. -/
def WriterOp.apply (st : WriterState) : WriterOp → WriterState
  | .wrOp bytes => (WriteChannel.write st bytes).2
  | .flOp => (WriteChannel.flush st).2
  | .dropReader => none

deriving instance DecidableEq for Except

/-! ### Helper lemmas about list surgery -/

theorem take_succ_set (d : Nat) :
    ∀ (l : List Nat) (i : Nat), i < l.length →
      (l.set i d).take (i + 1) = l.take i ++ [d]
  | [], i, h => by simp at h
  | a :: tl, 0, _ => by simp
  | a :: tl, i + 1, h => by
    simp only [List.set_cons_succ, List.take_succ_cons]
    rw [take_succ_set d tl i (by simpa using h)]
    simp

theorem drop_set_ge (d : Nat) (l : List Nat) :
    ∀ (i n : Nat), i < n → (l.set i d).drop n = l.drop n := by
  induction l with
  | nil => simp
  | cons a tl ih =>
    intro i n h
    cases n with
    | zero => omega
    | succ n =>
      cases i with
      | zero => simp
      | succ i => simpa using ih i n (by omega)

/-- Closed form of the read loop: when it pops k bytes starting at buffer
index i, the queue loses its first k bytes and the buffer positions
i to i+k-1 now hold them, everything else untouched. -/
theorem readLoop_eq :
    ∀ (k : Nat) (q buf : List Nat) (i : Nat), k ≤ q.length → i + k ≤ buf.length →
      readLoop q buf i k = (q.drop k, buf.take i ++ q.take k ++ buf.drop (i + k))
  | 0, q, buf, i, _, _ => by
    simp [readLoop, List.take_append_drop]
  | k + 1, [], buf, i, h1, _ => by simp at h1
  | k + 1, d :: rest, buf, i, h1, h2 => by
    have hik : i + 1 + k ≤ buf.length := by omega
    have hlen : i < buf.length := by omega
    have hrest : k ≤ rest.length := by simpa using h1
    have ih := readLoop_eq k rest (buf.set i d) (i + 1)
      hrest (by simpa using hik)
    simp only [readLoop, ih]
    simp only [Prod.mk.injEq]
    refine ⟨by simp, ?_⟩
    rw [take_succ_set d buf i hlen, drop_set_ge d buf i (i + 1 + k) (by omega)]
    have hidx : i + 1 + k = i + (k + 1) := by omega
    rw [hidx]
    simp

/-- Full characterisation of ReadChannel read: it returns Ok n with
n the minimum of queue length and buffer capacity, the queue loses its
first n bytes, and the buffer now starts with those n bytes followed by
its untouched tail. -/
theorem read_eq (q buf : List Nat) :
    ReadChannel.read q buf =
      .ok (min q.length buf.length,
           q.drop (min q.length buf.length),
           q.take (min q.length buf.length) ++
             buf.drop (min q.length buf.length)) := by
  have h := readLoop_eq (min q.length buf.length) q buf 0
    (Nat.min_le_left _ _) (by simp)
  simp only [ReadChannel.read, h]
  simp

/-- Writing a sequence of chunks to a live channel concatenates them onto
the back of the queue. -/
theorem writeAll_some :
    ∀ (cs : List (List Nat)) (q : Queue),
      writeAll (some q) cs = some (q ++ cs.flatten)
  | [], q => by simp [writeAll]
  | c :: cs, q => by
    simp only [writeAll, WriteChannel.write, List.flatten_cons]
    rw [writeAll_some cs (q ++ c)]
    simp

/-- Conservation across any interleaving of reads and writes on a live
channel: the bytes handed out by reads followed by the bytes still queued are
exactly the initial queue followed by all accepted chunks, in order.  In
particular no byte is duplicated, reordered, or lost. -/
theorem runOps_conservation :
    ∀ (ops : List Op) (q : Queue),
      (runOps q ops).2.1 ++ (runOps q ops).1 = q ++ (runOps q ops).2.2
  | [], q => by simp [runOps]
  | Op.wr bytes :: ops, q => by
    have ih := runOps_conservation ops (q ++ bytes)
    simp only [runOps, WriteChannel.write, Option.getD_some]
    rw [ih]
    simp
  | Op.rd buf :: ops, q => by
    have hn1 : min q.length buf.length ≤ q.length := Nat.min_le_left _ _
    have hlen : (q.take (min q.length buf.length)).length
        = min q.length buf.length := by
      rw [List.length_take]; omega
    have ih := runOps_conservation ops (q.drop (min q.length buf.length))
    simp only [runOps, read_eq]
    rw [List.take_left' hlen, List.append_assoc, ih, ← List.append_assoc,
      List.take_append_drop]

/-- A run consisting only of reads, starting from the empty queue, hands out
no bytes, returns count zero each time, and ends with the empty queue. -/
theorem runOps_reads_empty :
    ∀ (ops : List Op), (∀ op ∈ ops, op.isRead = true) →
      runOps [] ops = ([], [], [])
  | [], _ => rfl
  | Op.wr bytes :: ops, h => by
    have hw := h (Op.wr bytes) (List.mem_cons_self _ _)
    simp [Op.isRead] at hw
  | Op.rd buf :: ops, h => by
    have ih := runOps_reads_empty ops
      (fun op hop => h op (List.mem_cons_of_mem _ hop))
    simp only [runOps, read_eq]
    simp [ih]

/-- Writer operations on a dead channel never resurrect it. -/
theorem foldl_apply_none :
    ∀ (ops : List WriterOp), ops.foldl WriterOp.apply none = none
  | [] => rfl
  | op :: ops => by
    have hstep : WriterOp.apply none op = none := by cases op <;> rfl
    rw [List.foldl_cons, hstep, foldl_apply_none ops]

/-- Writer operations other than reader destruction preserve connectedness. -/
theorem foldl_apply_isSome :
    ∀ (ops : List WriterOp) (st : WriterState), WriterOp.dropReader ∉ ops →
      (ops.foldl WriterOp.apply st).isSome = st.isSome
  | [], _, _ => rfl
  | op :: ops, st, h => by
    have hop : op ≠ WriterOp.dropReader :=
      fun he => h (he ▸ List.mem_cons_self _ _)
    have ih := foldl_apply_isSome ops (WriterOp.apply st op)
      (fun hm => h (List.mem_cons_of_mem _ hm))
    rw [List.foldl_cons, ih]
    cases op with
    | wrOp bytes => cases st <;> rfl
    | flOp => cases st <;> rfl
    | dropReader => exact absurd rfl hop

/-! ### Claim theorems -/

/-- C1: writing any sequence of chunks to a freshly created live channel and
then reading into a buffer of capacity at least the total number of bytes
returns Ok of that total, and the buffer now starts with exactly those bytes
in the original write order (the queue is left empty). -/
theorem c1_round_trip (chunks : List (List Nat)) (buf : List Nat)
    (h : chunks.flatten.length ≤ buf.length) :
    writeAll (some []) chunks = some chunks.flatten ∧
    ReadChannel.read chunks.flatten buf =
      .ok (chunks.flatten.length, [],
           chunks.flatten ++ buf.drop chunks.flatten.length) := by
  refine ⟨by simpa using writeAll_some chunks [], ?_⟩
  have hr := read_eq chunks.flatten buf
  rw [min_eq_left h, List.drop_length, List.take_length] at hr
  exact hr

/-- Witness for C1 at chunks [[1, 2], [3]] and a four-byte buffer. -/
theorem c1_round_trip_witness :
    writeAll (some []) [[1, 2], [3]] = some [1, 2, 3] ∧
    ReadChannel.read [1, 2, 3] [0, 0, 0, 0] = .ok (3, [], [1, 2, 3, 0]) :=
  c1_round_trip [[1, 2], [3]] [0, 0, 0, 0] (by decide)

/-- C2: on any queue and buffer, read returns Ok n with n the minimum of the
queue length and the buffer capacity, removes exactly the first n queued
bytes in insertion order, and copies them to the front of the buffer; in
particular writing bytes 1..5 and reading into a three-byte buffer yields
count 3 and bytes 1, 2, 3, and a following five-byte read yields count 2 and
bytes 4, 5. -/
theorem c2_read_semantics (q buf : List Nat) :
    (ReadChannel.read q buf =
      .ok (min q.length buf.length,
           q.drop (min q.length buf.length),
           q.take (min q.length buf.length) ++
             buf.drop (min q.length buf.length))) ∧
    (WriteChannel.write (some []) [1, 2, 3, 4, 5]
        = (.ok 5, some [1, 2, 3, 4, 5]) ∧
     ReadChannel.read [1, 2, 3, 4, 5] [0, 0, 0] = .ok (3, [4, 5], [1, 2, 3]) ∧
     ReadChannel.read [4, 5] [0, 0, 0, 0, 0] = .ok (2, [], [4, 5, 0, 0, 0])) :=
  ⟨read_eq q buf, by decide, by decide, by decide⟩

/-- C3: read never returns an error on any queue state, and reading from an
empty queue (fresh channel, or after the writer is gone) yields Ok 0 with
the buffer untouched. -/
theorem c3_read_never_fails (q buf : List Nat) :
    (∃ out, ReadChannel.read q buf = .ok out) ∧
    ReadChannel.read [] buf = .ok (0, [], buf) := by
  refine ⟨⟨_, read_eq q buf⟩, ?_⟩
  simpa using read_eq [] buf

/-- C4: while the reader is alive, write appends the whole slice to the back
of the queue in order, leaves the prior contents in place as a prefix, and
returns Ok of the slice length. -/
theorem c4_write_appends (q : Queue) (bytes : List Nat) :
    WriteChannel.write (some q) bytes = (.ok bytes.length, some (q ++ bytes)) :=
  rfl

/-- C5: after the reader is destroyed, write fails with BrokenPipe and the
state is unchanged: no bytes are retained anywhere. -/
theorem c5_write_after_drop (bytes : List Nat) :
    WriteChannel.write none bytes = (.error .brokenPipe, none) :=
  rfl

/-- C6: flush succeeds and leaves the queue unchanged whenever the reader is
alive, whatever the queue holds, and fails with BrokenPipe exactly when the
reader has been destroyed. -/
theorem c6_flush_semantics (q : Queue) :
    WriteChannel.flush (some q) = (.ok (), some q) ∧
    WriteChannel.flush none = (.error .brokenPipe, none) :=
  ⟨rfl, rfl⟩

/-- C7: across any sequence of reads and writes, the bytes handed out by
reads followed by the bytes still queued equal the initial queue followed by
the accepted chunks in order, so no byte is returned twice, reordered, or
lost except by consumption; and a run of only reads from an empty queue
hands out nothing and returns zero each time. -/
theorem c7_no_duplication (q : Queue) (ops : List Op) :
    ((runOps q ops).2.1 ++ (runOps q ops).1 = q ++ (runOps q ops).2.2) ∧
    ((∀ op ∈ ops, op.isRead = true) → runOps [] ops = ([], [], [])) :=
  ⟨runOps_conservation ops q, fun h => runOps_reads_empty ops h⟩

/-- Witness for C7 at queue [9] and two reads into one-byte buffers. -/
theorem c7_no_duplication_witness :
    runOps [] [Op.rd [0], Op.rd [0]] = ([], [], []) :=
  (c7_no_duplication [9] [Op.rd [0], Op.rd [0]]).2 (by decide)

/-- C8: write and flush never change whether the channel is connected; any
sequence of writer operations without a reader destruction preserves
connectedness; from the disconnected state every sequence of writer
operations stays disconnected; and on a disconnected channel both write and
flush fail with BrokenPipe, so once one call has failed every later one
does too. -/
theorem c8_one_way_disconnect (st : WriterState) (bytes : List Nat)
    (ops : List WriterOp) :
    ((WriteChannel.write st bytes).2.isSome = st.isSome) ∧
    ((WriteChannel.flush st).2.isSome = st.isSome) ∧
    (WriterOp.dropReader ∉ ops →
      (ops.foldl WriterOp.apply st).isSome = st.isSome) ∧
    (ops.foldl WriterOp.apply none = none) ∧
    ((WriteChannel.write none bytes).1 = .error .brokenPipe) ∧
    ((WriteChannel.flush none).1 = .error .brokenPipe) :=
  ⟨by cases st <;> rfl, by cases st <;> rfl,
   fun h => foldl_apply_isSome ops st h,
   foldl_apply_none ops, rfl, rfl⟩

/-- Witness for C8 at a live one-byte queue and a flush-then-write run. -/
theorem c8_one_way_disconnect_witness :
    ([WriterOp.flOp, WriterOp.wrOp [3]].foldl WriterOp.apply
        (some [1])).isSome = (some [1] : WriterState).isSome :=
  (c8_one_way_disconnect (some [1]) [2] [WriterOp.flOp, WriterOp.wrOp [3]]).2.2.1
    (by decide)

/-- C9: a zero-length write after the reader is destroyed still fails with
BrokenPipe; the empty slice is not special-cased. -/
theorem c9_empty_write_broken_pipe :
    WriteChannel.write none [] = (.error .brokenPipe, none) :=
  rfl

/-- C10: read touches only the first n buffer positions, n being the
returned count: every position from index n on keeps its prior value, and
the buffer length is unchanged. -/
theorem c10_read_frame (q buf : List Nat) :
    ∀ n q1 buf1, ReadChannel.read q buf = .ok (n, q1, buf1) →
      buf1.drop n = buf.drop n ∧ buf1.length = buf.length := by
  intro n q1 buf1 h
  rw [read_eq] at h
  simp only [Except.ok.injEq, Prod.mk.injEq] at h
  obtain ⟨rfl, -, rfl⟩ := h
  have hm1 : min q.length buf.length ≤ q.length := Nat.min_le_left _ _
  have hm2 : min q.length buf.length ≤ buf.length := Nat.min_le_right _ _
  have hlen : (q.take (min q.length buf.length)).length
      = min q.length buf.length := by
    rw [List.length_take]; omega
  constructor
  · rw [List.drop_left' hlen]
  · rw [List.length_append, List.length_drop, hlen]; omega

/-- Witness for C10 at queue [7, 8] and a three-byte buffer. -/
theorem c10_read_frame_witness :
    List.drop 2 [7, 8, 0] = List.drop 2 ([0, 0, 0] : List Nat) ∧
    ([7, 8, 0] : List Nat).length = ([0, 0, 0] : List Nat).length :=
  c10_read_frame [7, 8] [0, 0, 0] 2 [] [7, 8, 0] (by decide)

end IoChannel
